import Mathlib

/-!
Verification of the `@arpadroid/resources` core (Resource / ListResource /
ListFilter) against its natural-language specification.

The JavaScript sources are shallowly embedded: JS values are modelled by
`JSVal` (with JS truthiness), JS objects by insertion-ordered association
lists, and the stateful methods by explicit state-passing functions.
External collaborators (the URL/query reader, `localStorage`, the router's
pop-state flag, `getObjectId`) are modelled as environment inputs, since the
repository delegates them to injected services.
-/

/-- A JavaScript primitive value. `undefined` is `undefined`.  Composite values
are not needed by the properties verified here. -/
inductive JSVal where
  | undefined : JSVal
  | null : JSVal
  | str : String → JSVal
  | num : Int → JSVal
  | bool : Bool → JSVal
deriving DecidableEq, Repr

/-- JavaScript truthiness of a `JSVal`. -/
def JSVal.truthy : JSVal → Bool
  | .undefined => false
  | .null => false
  | .str s => s ≠ ""
  | .num n => n ≠ 0
  | .bool b => b

/-- JavaScript `String(v)` coercion on the values modelled here. -/
def jsStringOf : JSVal → String
  | .undefined => "undefined"
  | .null => "null"
  | .str s => s
  | .num n => toString n
  | .bool b => if b then "true" else "false"

/-- `undefined` for a missing optional value (JS member access on absence). -/
def orUndef (v : Option JSVal) : JSVal :=
  match v with
  | some x => x
  | none => .undefined

/-- Lookup in an insertion-ordered association list (a JS object). -/
def alGet {α : Type} (l : List (String × α)) (k : String) : Option α :=
  (l.find? (fun p => p.1 == k)).map (fun p => p.2)

/-- Key assignment on a JS object: updates in place, else appends
(preserving JS property insertion order). -/
def alSet {α : Type} : List (String × α) → String → α → List (String × α)
  | [], k, v => [(k, v)]
  | (k₀, v₀) :: t, k, v =>
    if k₀ = k then (k, v) :: t else (k₀, v₀) :: alSet t k v

/-- JS `delete obj[k]`. -/
def alRemove {α : Type} (l : List (String × α)) (k : String) : List (String × α) :=
  l.filter (fun p => !(p.1 == k))

----------------------------------------------------------------
-- ListFilter (src/unnamed/part_004)
----------------------------------------------------------------

/-- The `ListFilter` configuration (`getDefaultConfig` merged with caller
overrides); only the fields read by `getValue` are carried. -/
structure ListFilterConfig where
  defaultValue : JSVal
  isURLFilter : Bool
  isOnlyURLFilter : Bool
  hasLocalStorage : Bool
  preProcessValue : Option (JSVal → JSVal)

/-- Ambient inputs of `ListFilter.getValue`: the URL query reader
(`getURLParam`), the `localStorage` slot under the filter id together with
the JSON parse oracle, and the router's pop-state flag. -/
structure FilterEnv where
  urlValue : JSVal
  savedRaw : Option String
  parse : String → Option JSVal
  isPopState : Bool

/-- `ListFilter.getSavedValue`: reads the stored string under the filter id
and JSON-parses it; a missing or empty item yields `undefined`, and a parse
error is caught and also yields `undefined`. -/
def getSavedValue (cfg : ListFilterConfig) (env : FilterEnv) : JSVal :=
  if cfg.hasLocalStorage then
    match env.savedRaw with
    | none => .undefined
    | some item => if item = "" then .undefined else orUndef (env.parse item)
  else .undefined

/-- `ListFilter.getValue` (part_004 lines 144-170), for a filter whose
cached `this.value` is `value`. -/
def getValue (cfg : ListFilterConfig) (value : JSVal) (env : FilterEnv) : JSVal :=
  let v0 := if value = .undefined then cfg.defaultValue else value
  let urlValue := env.urlValue
  if cfg.isOnlyURLFilter then urlValue
  else
    let savedValue := getSavedValue cfg env
    let isPop := env.isPopState
    let v1 :=
      if cfg.isURLFilter ∧ urlValue ≠ .undefined then urlValue
      else if ¬isPop ∧ cfg.hasLocalStorage ∧ savedValue ≠ .undefined then savedValue
      else v0
    let hasNoValue := v1 = .undefined ∨ v1 = .null
    let v2 :=
      if hasNoValue ∨ (cfg.isURLFilter ∧ ¬urlValue.truthy ∧ (¬savedValue.truthy ∨ isPop)) then
        cfg.defaultValue
      else v1
    match cfg.preProcessValue with
    | some f => f v2
    | none => v2

/-- The precedence stated by the spec, written from its words: URL value if
present, else (non-pop) persisted value, else the default.  Used to compare
the code's `getValue` against the specified resolution order. -/
def specFilterPrecedence (urlValue savedValue defaultValue : JSVal) (isPop : Bool) : JSVal :=
  if urlValue ≠ .undefined then urlValue
  else if ¬isPop ∧ savedValue ≠ .undefined then savedValue
  else defaultValue

----------------------------------------------------------------
-- ListResource pagination (listResource.js getItemRange)
----------------------------------------------------------------

/-- `ListResource.getItemRange` (listResource.js lines 108-125), as a pure
function of the current page, page size and total item count. -/
def getItemRange (currentPage itemsPerPage totalItems : Int) : Int × Int :=
  let start0 := (currentPage - 1) * itemsPerPage + 1
  let start1 := if start0 < 0 then 0 else start0
  let end0 := start1 + itemsPerPage - 1
  let clamped : Int × Int :=
    if end0 > totalItems then (totalItems - itemsPerPage + 1, totalItems)
    else (start1, end0)
  let start2 := if clamped.1 ≤ 0 then 1 else clamped.1
  (start2, clamped.2)

----------------------------------------------------------------
-- ListResource items (listResource.js item API)
----------------------------------------------------------------

/-- A list item: a JS object (ordered field map) together with a `tag`
standing for JS object identity (used by the external `getObjectId`). -/
structure Item where
  fields : List (String × JSVal)
  tag : Nat
deriving DecidableEq, Repr

/-- JS property read `item[k]` (absent property reads as `undefined`). -/
def objGet (it : Item) (k : String) : JSVal :=
  orUndef (alGet it.fields k)

/-- JS property write `item[k] = v`. -/
def objSet (it : Item) (k : String) (v : JSVal) : Item :=
  { it with fields := alSet it.fields k v }

/-- Events a `ListResource` signals (the names are the wire contract). -/
inductive LEv where
  | addItemEv : LEv
  | removeItemEv : LEv
  | itemsUpdatedEv : LEv
  | itemSelectedEv : String → LEv
  | itemDeselectedEv : String → LEv
  | selectionChangeEv : LEv
deriving DecidableEq, Repr

/-- The slice of the `ListResource` configuration the item and selection
APIs read. `mapItemId` and `preProcessItemCb` are the caller-supplied
`mapItemId` / `preProcessItem` hooks (absent by default). -/
structure ListCfg where
  itemIdMap : String
  mapItemId : Option (Item → JSVal)
  preProcessItemCb : Option (Item → Item)
  hasSelection : Bool

/-- `ListResource.getIdMap`: `this._config?.itemIdMap || 'id'`. -/
def getIdMap (cfg : ListCfg) : String :=
  if cfg.itemIdMap = "" then "id" else cfg.itemIdMap

/-- `ListResource.getItemId`: `mapItemId?.(item) || item[idMap] || item.id
|| 'item-' + getObjectId(item) || Math.random()`, with JS `||` truthiness.
`objId` models the external `getObjectId`; since `'item-' + …` is a
non-empty (truthy) string, the `Math.random()` arm is unreachable. -/
def getItemId (cfg : ListCfg) (objId : Nat → Nat) (item : Item) : JSVal :=
  let m : JSVal := match cfg.mapItemId with
    | some f => f item
    | none => .undefined
  if m.truthy then m
  else
    let v := objGet item (getIdMap cfg)
    if v.truthy then v
    else
      let v := objGet item "id"
      if v.truthy then v
      else .str ("item-" ++ toString (objId item.tag))

/-- Mutable `ListResource` collection/selection state. -/
structure ListState where
  items : List Item
  itemsById : List (String × Item)
  rawItemsById : List (String × Item)
  selectedItems : List Item
  selectedItemsById : List (String × Item)
  totalItems : Int
  events : List LEv
deriving Repr

/-- JS `Array.prototype.findIndex`: first index satisfying `p`, else `-1`. -/
def findIndexBy {α : Type} (p : α → Bool) : List α → Int
  | [] => -1
  | it :: t =>
    if p it then 0
    else
      let r := findIndexBy p t
      if r = -1 then -1 else r + 1

/-- `ListResource.getItemIndex` (listResource.js lines 659-664): `-1` when
`item[idMap]` is `undefined`, else the first index whose `idMap` field
strictly equals the argument's. -/
def getItemIndex (cfg : ListCfg) (st : ListState) (item : Item) : Int :=
  if objGet item (getIdMap cfg) = .undefined then -1
  else findIndexBy (fun it => objGet it (getIdMap cfg) == objGet item (getIdMap cfg)) st.items

/-- `ListResource.preProcessItem`: applies the configured hook, resolves and
stamps the id under both `id` and the id-map field, attaches the owning-list
back-references (modelled as opaque marker fields), and indexes the item
into `itemsById` / `rawItemsById`.  Returns the updated state and the
processed item. -/
def preProcessItem (cfg : ListCfg) (objId : Nat → Nat) (st : ListState) (item : Item) :
    ListState × Item :=
  let rawItem := item
  let item := match cfg.preProcessItemCb with
    | some f => f item
    | none => item
  let id := jsStringOf (getItemId cfg objId item)
  let item := objSet item "id" (.str id)
  let item := objSet item "listResource" (.bool true)
  let item := objSet item "list" .undefined
  let item := objSet item (getIdMap cfg) (.str id)
  let itemId := objGet item (getIdMap cfg)
  let st :=
    match itemId with
    | .str s => { st with itemsById := alSet st.itemsById s item }
    | .num n => { st with itemsById := alSet st.itemsById (toString n) item }
    | _ => st
  let st := { st with rawItemsById := alSet st.rawItemsById id rawItem }
  (st, item)

/-- `ListResource.removeItem` (listResource.js lines 613-627).  Verbatim
from the source: after splicing the item out of `items`, the guard and the
delete read `itemsById[this.getIdMap()]` — i.e. they index `itemsById` by
the id-map KEY NAME (normally the literal string `'id'`), not by the removed
item's id. -/
def removeItem (cfg : ListCfg) (st : ListState) (item : Item) (sendUpdate : Bool) : ListState :=
  let index := getItemIndex cfg st item
  if index = -1 then st
  else
    let st := { st with items := st.items.eraseIdx index.toNat }
    let st :=
      if (alGet st.itemsById (getIdMap cfg)).isSome then
        let st := { st with itemsById := alRemove st.itemsById (getIdMap cfg) }
        if st.totalItems ≠ 0 then { st with totalItems := st.totalItems - 1 } else st
      else st
    if sendUpdate then
      { st with events := st.events ++ [LEv.removeItemEv, LEv.itemsUpdatedEv] }
    else st

/-- `ListResource.addItem` (listResource.js lines 494-508): evicts any item
of the same identity via `removeItem`, pre-processes, appends (or prepends),
bumps the cached total (JS truthiness: only when it is already non-zero),
and optionally signals. -/
def addItem (cfg : ListCfg) (objId : Nat → Nat) (st : ListState) (item : Item)
    (sendUpdate : Bool) (unshift : Bool) : ListState × Item :=
  let st := removeItem cfg st item false
  let p := preProcessItem cfg objId st item
  let st := p.1
  let item := p.2
  let st := { st with items := if unshift then item :: st.items else st.items ++ [item] }
  let st :=
    if st.totalItems ≠ 0 then { st with totalItems := st.totalItems + 1 } else st
  let st :=
    if sendUpdate then { st with events := st.events ++ [LEv.addItemEv, LEv.itemsUpdatedEv] }
    else st
  (st, item)

/-- Number of entries in `items` whose id-map field holds the id `i`
("entries with that identity"). -/
def countId (idMap : String) (items : List Item) (i : String) : Nat :=
  items.countP (fun it => objGet it idMap == JSVal.str i)

----------------------------------------------------------------
-- ListResource selection (listResource.js selection API)
----------------------------------------------------------------

/-- `ListResource.isSelected`: `Boolean(itemID && selectedItemsById[itemID])`
(the stringified id is falsy only when empty; a stored object is truthy). -/
def isSelected (cfg : ListCfg) (objId : Nat → Nat) (st : ListState) (item : Item) : Bool :=
  let itemID := jsStringOf (getItemId cfg objId item)
  itemID ≠ "" && (alGet st.selectedItemsById itemID).isSome

/-- Base `ListResource.isItemSelectable`: returns `hasSelection()`. -/
def isItemSelectable (cfg : ListCfg) (_item : Item) : Bool :=
  cfg.hasSelection

/-- `ListResource.selectItem` (listResource.js lines 1170-1187).  The
item-scoped `item_selected_<id>` signal fires whenever the item is newly
selected; only the aggregate `selection_change` is gated by `callOnChange`.
Selection persistence (`hasSelectionSave`) is off, as in the default
configuration, so `getSelectedItems()` reads `this.selectedItems`. -/
def selectItem (cfg : ListCfg) (objId : Nat → Nat) (st : ListState) (item : Item)
    (callOnChange : Bool) : ListState :=
  if isSelected cfg objId st item || (cfg.hasSelection && !(isItemSelectable cfg item)) then st
  else
    let selected := st.selectedItems ++ [item]
    let itemID := jsStringOf (getItemId cfg objId item)
    let st := { st with selectedItems := selected,
                        selectedItemsById := alSet st.selectedItemsById itemID item }
    let st := { st with events := st.events ++ [LEv.itemSelectedEv itemID] }
    if callOnChange then { st with events := st.events ++ [LEv.selectionChangeEv] } else st

/-- `ListResource.deselectItem` (listResource.js lines 1189-1201): deletes
the id entry, rebuilds `selectedItems` from `Object.values(selectedItemsById)`
(insertion order), always signals `item_deselected_<id>`, and signals the
aggregate only when `callOnChange`. -/
def deselectItem (cfg : ListCfg) (objId : Nat → Nat) (st : ListState) (item : Item)
    (callOnChange : Bool) : ListState :=
  if !(isSelected cfg objId st item) then st
  else
    let itemID := jsStringOf (getItemId cfg objId item)
    let byId : List (String × Item) := alRemove st.selectedItemsById itemID
    let st := { st with selectedItemsById := byId,
                        selectedItems := List.map Prod.snd byId }
    let st := { st with events := st.events ++ [LEv.itemDeselectedEv itemID] }
    if callOnChange then { st with events := st.events ++ [LEv.selectionChangeEv] } else st

/-- `ListResource.setSelections` (listResource.js lines 1222-1232): maps the
per-item select/deselect with the aggregate signal suppressed, then emits
one aggregate `selection_change` when `callOnChange`. -/
def setSelections (cfg : ListCfg) (objId : Nat → Nat) (st : ListState) (selected : Bool)
    (callOnChange : Bool) (items : List Item) : ListState :=
  let st :=
    if selected then items.foldl (fun s it => selectItem cfg objId s it false) st
    else items.foldl (fun s it => deselectItem cfg objId s it false) st
  if callOnChange then { st with events := st.events ++ [LEv.selectionChangeEv] } else st

----------------------------------------------------------------
-- Resource (src/src/resources/resource/resource.js)
----------------------------------------------------------------

/-- Events a `Resource` signals. -/
inductive REv where
  | readyEv : Bool → REv
  | fetchEv : REv
  | payloadEv : REv
  | errorEv : REv
deriving DecidableEq, Repr

/-- The `Resource` instance state touched by the verified methods.
`request` / `promise` hold ids of promise objects (`none` = `undefined`);
`uitemsLen` models the `this._items` field read by `onLoad`, which is never
assigned on `Resource`; `unsubscribes` holds ids of the registered
unsubscribe callbacks. -/
structure ResourceState where
  id : String
  isReady : Bool
  hasFetched : Bool
  hasFailed : Bool
  request : Option Nat
  promise : Option Nat
  uitemsLen : Option Nat
  payload : List (String × JSVal)
  events : List REv
  nextReq : Nat
  unsubscribes : List Nat
deriving DecidableEq, Repr

/-- The state of a `Resource` right after construction. -/
def newResource (id : String) : ResourceState :=
  { id := id, isReady := true, hasFetched := false, hasFailed := false,
    request := none, promise := none, uitemsLen := none,
    payload := [], events := [], nextReq := 0, unsubscribes := [] }

/-- The synchronous entry of `Resource.fetch` (resource.js lines 115-132):
when ready it flips the gate, signals `ready:false` then `fetch`, and stores
a fresh in-flight request; when not ready it does nothing and returns the
existing `this.request`.  Returns the new state and the returned promise. -/
def fetchEntry (st : ResourceState) : ResourceState × Option Nat :=
  if st.isReady then
    let st := { st with isReady := false,
                        events := st.events ++ [REv.readyEv false, REv.fetchEv],
                        request := some st.nextReq,
                        nextReq := st.nextReq + 1 }
    (st, st.request)
  else (st, st.request)

/-- `Resource._onComplete`: flips `isReady` back, sets `hasFetched`, signals
`ready:true` (the debounce timer re-assigns the same value later). -/
def onCompleteStep (st : ResourceState) : ResourceState :=
  { st with isReady := true, hasFetched := true,
            events := st.events ++ [REv.readyEv true] }

/-- The guard of `Resource.onLoad` (resource.js lines 302-312): the method
resolves immediately exactly when
`this.hasFetched || !this.promise || this._items?.length` holds; otherwise
it waits for the next `ready` signal. -/
def onLoadResolvesImmediately (st : ResourceState) : Bool :=
  st.hasFetched || st.promise.isNone ||
    (match st.uitemsLen with
     | some n => decide (0 < n)
     | none => false)

----------------------------------------------------------------
-- Polling (resource.js lines 259-300)
----------------------------------------------------------------

/-- The poll-loop state.  `fetchCycles` is a ghost counter of `_poll`
invocations (each performs one fetch cycle); `stopped` records that the loop
cleared its timer and invoked `onComplete`.  The payload passed to the stop
callback is abstracted by the number of completed fetch cycles. -/
structure PollState where
  pollCount : Nat
  maxPollCount : Nat
  fetchCycles : Nat
  stopped : Bool
deriving DecidableEq, Repr

/-- `Resource._mustStopPolling`: `mustStopPollingCb(payload) ||
pollCount > maxPollCount`. -/
def mustStopPolling (cb : Nat → Bool) (st : PollState) : Bool :=
  cb st.fetchCycles || decide (st.pollCount > st.maxPollCount)

/-- One `_poll` cycle: performs the fetch, then `_onPollComplete` either
stops or schedules the next cycle.  Verbatim from the source, `pollCount`
is reset by `poll()` but never incremented anywhere in the repository. -/
def pollCycle (cb : Nat → Bool) (st : PollState) : PollState :=
  let st := { st with fetchCycles := st.fetchCycles + 1 }
  if mustStopPolling cb st then { st with stopped := true } else st

/-- Runs up to `n` poll cycles (fuel-bounded event loop). -/
def pollRun (cb : Nat → Bool) (st : PollState) : Nat → PollState
  | 0 => st
  | n + 1 =>
    let st := pollCycle cb st
    if st.stopped then st else pollRun cb st n

/-- `Resource.poll` resets `pollCount` to 0 before the first `_poll`. -/
def pollInit (maxPollCount : Nat) : PollState :=
  { pollCount := 0, maxPollCount := maxPollCount, fetchCycles := 0, stopped := false }

----------------------------------------------------------------
-- Resource registry and destroy
----------------------------------------------------------------

/-- The process-wide `resourceStore`, mapping resource id to an instance
handle. -/
abbrev Store := List (String × Nat)

/-- `removeResource(id)`: `getResource(id) && delete resourceStore[id]`. -/
def removeResourceFromStore (store : Store) (id : String) : Store :=
  if (alGet store id).isSome then alRemove store id else store

/-- `Resource.destroy` (resource.js lines 314-317): clears the payload and
invokes every registered unsubscribe callback; it does NOT touch the
registry.  Returns the new state, the (unchanged) registry, and the list of
unsubscribe callbacks invoked, in call order. -/
def resourceDestroy (st : ResourceState) (store : Store) :
    ResourceState × Store × List Nat :=
  ({ st with payload := [] }, store, st.unsubscribes)

/-- `ListResource.clearSelectionData` (selection persistence off): signals
`item_deselected_<id>` for each selected item, empties the selection, and
signals `selection_change`. -/
def clearSelectionData (ls : ListState) : ListState :=
  let ls := { ls with events :=
    ls.events ++ ls.selectedItems.map (fun it => LEv.itemDeselectedEv (jsStringOf (objGet it "id"))) }
  let ls := { ls with selectedItems := [], selectedItemsById := [] }
  { ls with events := ls.events ++ [LEv.selectionChangeEv] }

/-- `ListResource.destroy` (listResource.js lines 1290-1301): empties the
collections and filters, clears the payload, calls `removeResource(this.id)`,
clears selection data, then `super.destroy()` (which re-clears the payload
and runs the unsubscribe callbacks). -/
def listResourceDestroy (ls : ListState) (st : ResourceState) (store : Store) :
    ListState × ResourceState × Store × List Nat :=
  let ls := { ls with items := [], itemsById := [], rawItemsById := [],
                      selectedItems := [], selectedItemsById := [] }
  let st := { st with payload := [] }
  let store := removeResourceFromStore store st.id
  let ls := clearSelectionData ls
  let d := resourceDestroy st store
  (ls, d.1, d.2.1, d.2.2)

----------------------------------------------------------------
-- getPayload shallow copy (resource.js lines 214-216)
----------------------------------------------------------------

/-- A heap of JS objects (payload mappings), addressed by reference. -/
structure Heap where
  objs : List (List (String × JSVal))
deriving DecidableEq, Repr

/-- Dereference: the field map stored under reference `r`. -/
def heapGet (h : Heap) (r : Nat) : List (String × JSVal) :=
  (h.objs[r]?).getD []

/-- Allocate a fresh object, returning the new heap and its reference. -/
def heapAlloc (h : Heap) (o : List (String × JSVal)) : Heap × Nat :=
  ({ objs := h.objs ++ [o] }, h.objs.length)

/-- Assign a top-level key of the object under reference `r`. -/
def heapSetField (h : Heap) (r : Nat) (k : String) (v : JSVal) : Heap :=
  { objs := h.objs.set r (alSet (heapGet h r) k v) }

/-- `Resource.getPayload`: returns `\x7b ...this._payload \x7d`, i.e.
allocates a fresh object holding a copy of the payload's top-level entries
and returns its reference. -/
def getPayloadOp (h : Heap) (payloadRef : Nat) : Heap × Nat :=
  heapAlloc h (heapGet h payloadRef)

----------------------------------------------------------------
-- Concrete scenario instances
----------------------------------------------------------------

/-- A URL-synced, storage-backed sort-direction filter with default `'asc'`
and no value hooks (the configuration of the spec's precedence scenario). -/
def sortDirCfg : ListFilterConfig :=
  { defaultValue := .str "asc", isURLFilter := true, isOnlyURLFilter := false,
    hasLocalStorage := true, preProcessValue := none }

/-- Environment with no URL value, a persisted (JSON) empty string — a
present but falsy persisted value — and a non-pop navigation. -/
def envSavedEmpty : FilterEnv :=
  { urlValue := .undefined, savedRaw := some "\"\"", parse := fun _ => some (.str ""),
    isPopState := false }

/-- Environment where the URL carries `desc` and storage holds `asc`
(non-pop navigation): the spec's "URL wins" scenario. -/
def envUrlDesc : FilterEnv :=
  { urlValue := .str "desc", savedRaw := some "\"asc\"",
    parse := fun _ => some (.str "asc"), isPopState := false }

/-- The default `ListResource` item configuration (id map `'id'`, no hooks,
no selection). -/
def defaultListCfg : ListCfg :=
  { itemIdMap := "id", mapItemId := none, preProcessItemCb := none, hasSelection := false }

/-- An object-identity oracle for `getObjectId` (any function works for the
concrete scenarios). -/
def objIdTag : Nat → Nat := fun n => n

/-- An item whose `id` field is `'a'`. -/
def itemA : Item := { fields := [("id", .str "a")], tag := 0 }

/-- A list state holding exactly `itemA`, consistently indexed. -/
def stWithA : ListState :=
  { items := [itemA], itemsById := [("a", itemA)], rawItemsById := [],
    selectedItems := [], selectedItemsById := [], totalItems := 1, events := [] }

/-- The empty list state. -/
def stEmpty : ListState :=
  { items := [], itemsById := [], rawItemsById := [], selectedItems := [],
    selectedItemsById := [], totalItems := 0, events := [] }

/-- A configuration whose item identity comes only from a `mapItemId`
callback (constantly `'k'`); items carry no `id` field of their own. -/
def mapIdCfg : ListCfg :=
  { itemIdMap := "id", mapItemId := some (fun _ => .str "k"),
    preProcessItemCb := none, hasSelection := false }

/-- Two distinct raw objects with no `id` field (distinguished by tag). -/
def anonX : Item := { fields := [], tag := 0 }

/-- See `anonX`. -/
def anonY : Item := { fields := [], tag := 1 }

/-- The default configuration with selection enabled. -/
def selectionCfg : ListCfg :=
  { itemIdMap := "id", mapItemId := none, preProcessItemCb := none, hasSelection := true }

----------------------------------------------------------------
-- Helper lemmas
----------------------------------------------------------------

theorem JSVal.truthy_undefined : JSVal.undefined.truthy = false := rfl

theorem JSVal.ne_undef_of_truthy {v : JSVal} (h : v.truthy = true) : v ≠ JSVal.undefined := by
  cases v <;> simp_all [JSVal.truthy]

theorem JSVal.ne_null_of_truthy {v : JSVal} (h : v.truthy = true) : v ≠ JSVal.null := by
  cases v <;> simp_all [JSVal.truthy]

theorem alGet_alRemove_self {α : Type} (l : List (String × α)) (k : String) :
    alGet (alRemove l k) k = none := by
  induction l with
  | nil => rfl
  | cons hd t ih =>
    rcases hd with ⟨a, b⟩
    simp only [alRemove] at ih ⊢
    by_cases h : a = k
    · simp [List.filter_cons, h, ih]
    · simp only [List.filter_cons]
      have hb : (!(a == k)) = true := by simp [h]
      rw [hb]
      simp only [if_true]
      simp only [alGet, List.find?] at ih ⊢
      have hb2 : (a == k) = false := by simp [h]
      rw [hb2]
      exact ih

theorem alGet_alSet_self {α : Type} (l : List (String × α)) (k : String) (v : α) :
    alGet (alSet l k v) k = some v := by
  induction l with
  | nil => simp [alSet, alGet, List.find?]
  | cons hd t ih =>
    rcases hd with ⟨a, b⟩
    by_cases h : a = k
    · simp [alSet, alGet, List.find?, h]
    · simpa [alSet, alGet, List.find?, h] using ih

theorem removeResourceFromStore_lookup (store : Store) (id : String) :
    alGet (removeResourceFromStore store id) id = none := by
  unfold removeResourceFromStore
  cases h : alGet store id with
  | none => simp [h]
  | some v => simp [h, alGet_alRemove_self]

----------------------------------------------------------------
-- C2: polling
----------------------------------------------------------------

theorem pollRun_const_false (n : Nat) :
    ∀ st : PollState, st.pollCount ≤ st.maxPollCount → st.stopped = false →
      (pollRun (fun _ => false) st n).stopped = false ∧
      (pollRun (fun _ => false) st n).fetchCycles = st.fetchCycles + n ∧
      (pollRun (fun _ => false) st n).pollCount = st.pollCount := by
  induction n with
  | zero =>
    intro st _ hs
    refine ⟨hs, ?_, rfl⟩
    rw [Nat.add_zero]
    exact rfl
  | succ n ih =>
    intro st hle hs
    have hstop :
        mustStopPolling (fun _ => false) { st with fetchCycles := st.fetchCycles + 1 } = false := by
      simp [mustStopPolling, Nat.not_lt.mpr hle]
    have hcycle :
        pollCycle (fun _ => false) st = { st with fetchCycles := st.fetchCycles + 1 } := by
      simp [pollCycle, hstop]
    have ihs := ih { st with fetchCycles := st.fetchCycles + 1 } hle hs
    rw [pollRun.eq_2, hcycle]
    rw [if_neg (by simp [hs] :
      ¬(({ st with fetchCycles := st.fetchCycles + 1 } : PollState).stopped = true))]
    refine ⟨ihs.1, ?_, ihs.2.2⟩
    rw [ihs.2.1]
    show st.fetchCycles + 1 + n = st.fetchCycles + (n + 1)
    omega

/-- C2: with `maxPollCount = 2` and a stop callback that always returns
false, the poll loop never stops — after `n` cycles it has performed `n`
fetch cycles with `pollCount` still 0 and `onComplete` never invoked —
because `pollCount` is reset by `poll()` but never incremented, so
`pollCount > maxPollCount` never holds.  The claim's "exactly 3 fetch
cycles then stop" is therefore false of the code. -/
theorem c2_poll_never_stops (n : Nat) :
    (pollRun (fun _ => false) (pollInit 2) n).stopped = false ∧
    (pollRun (fun _ => false) (pollInit 2) n).fetchCycles = n ∧
    (pollRun (fun _ => false) (pollInit 2) n).pollCount = 0 := by
  have h := pollRun_const_false n (pollInit 2) (by simp [pollInit]) (by simp [pollInit])
  simpa [pollInit] using h

----------------------------------------------------------------
-- C3: the isReady gate of fetch
----------------------------------------------------------------

/-- C3: a `fetch()` call made while `isReady` is false leaves the resource
state completely unchanged (no events, no new request, payload and flags
untouched) and returns the existing in-flight request promise. -/
theorem c3_fetch_not_ready_is_noop (st : ResourceState) (h : st.isReady = false) :
    fetchEntry st = (st, st.request) := by
  unfold fetchEntry
  simp [h]

/-- Witness for C3: a concrete not-ready resource state. -/
theorem c3_fetch_not_ready_is_noop_witness :
    ({ newResource "r" with isReady := false, request := some 0 } : ResourceState).isReady
        = false ∧
    fetchEntry { newResource "r" with isReady := false, request := some 0 } =
      ({ newResource "r" with isReady := false, request := some 0 }, some 0) := by
  exact ⟨rfl,
    c3_fetch_not_ready_is_noop { newResource "r" with isReady := false, request := some 0 } rfl⟩

----------------------------------------------------------------
-- C4: getItemRange bounds
----------------------------------------------------------------

/-- C4 counterexample: with the default configuration's `itemsPerPage = 0`
(page 1, 5 total items) `getItemRange` returns `[1, 0]`, violating
`start ≤ end` although `totalItems > 0`. -/
theorem c4_counterexample :
    getItemRange 1 0 5 = (1, 0) ∧ (0 : Int) < 5 ∧ ¬((1 : Int) ≤ (0 : Int)) := by
  decide

/-- C4 (amended): whenever the current page and page size are at least 1,
the range returned by `getItemRange` satisfies
`1 ≤ start ∧ start ≤ end ∧ end ≤ totalItems` for `totalItems > 0`, and
`start = 1` when `totalItems = 0`. -/
theorem c4_getItemRange_bounds (page pp total s e : Int)
    (hp : 1 ≤ page) (hpp : 1 ≤ pp)
    (hr : getItemRange page pp total = (s, e)) :
    (0 < total → 1 ≤ s ∧ s ≤ e ∧ e ≤ total) ∧ (total = 0 → s = 1) := by
  have hk : 0 ≤ (page - 1) * pp := mul_nonneg (by omega) (by omega)
  unfold getItemRange at hr
  generalize hgen : (page - 1) * pp = k at hr hk
  simp only [] at hr
  split_ifs at hr <;>
    (injection hr with h1 h2) <;>
    constructor <;> intro hcase <;> omega

/-- Witness for C4: page 3, page size 2, 5 total items gives the clamped
range [4, 5], inside the required bounds. -/
theorem c4_getItemRange_bounds_witness :
    getItemRange 3 2 5 = (4, 5) ∧
    ((0 : Int) < 5 → 1 ≤ (4 : Int) ∧ (4 : Int) ≤ (5 : Int) ∧ (5 : Int) ≤ (5 : Int)) ∧
    ((5 : Int) = 0 → (4 : Int) = 1) := by
  refine ⟨by decide, ?_⟩
  exact c4_getItemRange_bounds 3 2 5 4 5 (by decide) (by decide) (by decide)

----------------------------------------------------------------
-- C5: items / itemsById consistency
----------------------------------------------------------------

/-- C5: on a state holding exactly one item (id `'a'`), consistently
indexed, `removeItem` empties `items` but leaves the `'a'` entry in
`itemsById` (and the cached total undecremented): the delete targets
`itemsById[getIdMap()]`, i.e. the key name `'id'`, not the item's id, so
`itemsById` retains an entry whose item is no longer in `items`. -/
theorem c5_removeItem_leaves_stale_index :
    (removeItem defaultListCfg stWithA itemA false).items = [] ∧
    alGet (removeItem defaultListCfg stWithA itemA false).itemsById "a" = some itemA ∧
    (removeItem defaultListCfg stWithA itemA false).totalItems = 1 := by
  decide

----------------------------------------------------------------
-- C8: onLoad
----------------------------------------------------------------

/-- C8: `onLoad` resolves immediately on a freshly constructed resource and
on a resource with a fetch in flight, although in both states no fetch has
completed — `this.promise` is never assigned anywhere in the repository, so
the `!this.promise` disjunct of the guard always holds and the
wait-for-ready branch is unreachable.  This falsifies the claim's "resolves
immediately if and only if a fetch has already completed". -/
theorem c8_onLoad_always_immediate :
    (newResource "res").hasFetched = false ∧
    onLoadResolvesImmediately (newResource "res") = true ∧
    (fetchEntry (newResource "res")).1.hasFetched = false ∧
    (fetchEntry (newResource "res")).1.isReady = false ∧
    onLoadResolvesImmediately (fetchEntry (newResource "res")).1 = true := by
  decide

----------------------------------------------------------------
-- C9: destroy and the resource registry
----------------------------------------------------------------

/-- C9 counterexample: a base `Resource`'s `destroy()` does not deregister
it — with the registry holding the entry `("r", 0)`, `destroy()` returns
the registry unchanged and the lookup under the resource's id still
succeeds, contradicting "after destroy() the registry has no entry under
the resource's id". -/
theorem c9_counterexample :
    (resourceDestroy (newResource "r") [("r", 0)]).2.1 = [("r", 0)] ∧
    alGet (resourceDestroy (newResource "r") [("r", 0)]).2.1 "r" = some 0 ∧
    (resourceDestroy (newResource "r") [("r", 0)]).1.payload = [] := by
  decide

/-- C9 (amended): `ListResource.destroy()` clears the payload, invokes the
registered unsubscribe callbacks exactly once each (the call log equals the
registered list), and deregisters the instance: afterwards the registry has
no entry under the resource's id.  A base `Resource.destroy()` clears the
payload and runs the callbacks but leaves the registry untouched. -/
theorem c9_list_destroy_deregisters (ls : ListState) (st : ResourceState) (store : Store) :
    (listResourceDestroy ls st store).2.1.payload = [] ∧
    alGet (listResourceDestroy ls st store).2.2.1 st.id = none ∧
    (listResourceDestroy ls st store).2.2.2 = st.unsubscribes ∧
    (resourceDestroy st store).1.payload = [] ∧
    (resourceDestroy st store).2.1 = store ∧
    (resourceDestroy st store).2.2 = st.unsubscribes := by
  refine ⟨rfl, ?_, rfl, rfl, rfl, rfl⟩
  exact removeResourceFromStore_lookup store st.id

----------------------------------------------------------------
-- C10: getPayload returns a shallow copy
----------------------------------------------------------------

/-- C10: `getPayload()` allocates a fresh object (a reference distinct from
the stored payload's) holding the payload's top-level entries; assigning a
top-level key on the returned object leaves the internal payload — and thus
every later `getPayload()` result — unchanged. -/
theorem c10_getPayload_shallow_copy (h : Heap) (pr : Nat) (hpr : pr < h.objs.length) :
    (getPayloadOp h pr).2 ≠ pr ∧
    heapGet (getPayloadOp h pr).1 (getPayloadOp h pr).2 = heapGet h pr ∧
    ∀ k v, heapGet (heapSetField (getPayloadOp h pr).1 (getPayloadOp h pr).2 k v) pr =
      heapGet h pr := by
  refine ⟨?_, ?_, ?_⟩
  · show h.objs.length ≠ pr
    omega
  · show heapGet { objs := h.objs ++ [heapGet h pr] } h.objs.length = heapGet h pr
    unfold heapGet
    rw [List.getElem?_concat_length]
    rfl
  · intro k v
    show heapGet (heapSetField { objs := h.objs ++ [heapGet h pr] } h.objs.length k v) pr
        = heapGet h pr
    unfold heapSetField heapGet
    rw [List.getElem?_set_ne (by omega)]
    rw [List.getElem?_append_left hpr]

/-- Witness for C10: a one-object heap whose payload holds `a ↦ 1`. -/
theorem c10_getPayload_shallow_copy_witness :
    (0 : Nat) < ({ objs := [[("a", JSVal.num 1)]] } : Heap).objs.length ∧
    (getPayloadOp { objs := [[("a", JSVal.num 1)]] } 0).2 ≠ 0 := by
  exact ⟨by decide, (c10_getPayload_shallow_copy { objs := [[("a", JSVal.num 1)]] } 0
    (by decide)).1⟩



----------------------------------------------------------------
-- C1: ListFilter value resolution precedence
----------------------------------------------------------------

/-- C1 counterexample: a URL-synced, storage-backed filter (default
`'asc'`), no URL value, non-pop navigation, and a present persisted value
that is the empty string.  The claim requires the persisted value to be
returned; the code returns the default `'asc'` because the fallback guard
tests JS truthiness of the persisted value, not its presence. -/
theorem c1_counterexample :
    sortDirCfg.isURLFilter = true ∧ sortDirCfg.hasLocalStorage = true ∧
    envSavedEmpty.urlValue = JSVal.undefined ∧ envSavedEmpty.isPopState = false ∧
    getSavedValue sortDirCfg envSavedEmpty = JSVal.str "" ∧
    getValue sortDirCfg JSVal.undefined envSavedEmpty = JSVal.str "asc" ∧
    JSVal.str "asc" ≠ JSVal.str "" := by
  decide

/-- C1 (amended): for a filter with `isURLFilter` and `hasLocalStorage`
(and no `isOnlyURLFilter`/`preProcessValue`), `getValue` resolves with the
claimed strict precedence — URL value, else persisted value on a non-pop
navigation, else the default (in particular bypassing the persisted value
on a pop navigation) — provided the URL value and the persisted value are
truthy whenever present (e.g. non-empty strings).  A present but falsy
value instead falls through to the default. -/
theorem c1_getValue_precedence (cfg : ListFilterConfig) (value : JSVal) (env : FilterEnv)
    (hurl : cfg.isURLFilter = true) (hls : cfg.hasLocalStorage = true)
    (honly : cfg.isOnlyURLFilter = false) (hpre : cfg.preProcessValue = none)
    (hu : env.urlValue = JSVal.undefined ∨ env.urlValue.truthy = true)
    (hs : getSavedValue cfg env = JSVal.undefined ∨ (getSavedValue cfg env).truthy = true) :
    getValue cfg value env =
      specFilterPrecedence env.urlValue (getSavedValue cfg env) cfg.defaultValue
        env.isPopState := by
  simp only [getValue, specFilterPrecedence, hurl, honly, hls, hpre]
  rcases hu with hu | hu
  · rcases hs with hs | hs
    · simp [hu, hs, JSVal.truthy_undefined]
    · have hne := JSVal.ne_undef_of_truthy hs
      have hnn := JSVal.ne_null_of_truthy hs
      cases hpop : env.isPopState
      · simp [hu, hpop, hs, hne, hnn, JSVal.truthy_undefined]
      · simp [hu, hpop, hs, hne, hnn, JSVal.truthy_undefined]
  · have hne := JSVal.ne_undef_of_truthy hu
    have hnn := JSVal.ne_null_of_truthy hu
    simp [hu, hne, hnn]

/-- Witness for C1: URL carries `desc`, storage holds `asc`, non-pop
navigation — the URL value wins. -/
theorem c1_getValue_precedence_witness :
    getValue sortDirCfg JSVal.undefined envUrlDesc = JSVal.str "desc" := by
  have h := c1_getValue_precedence sortDirCfg JSVal.undefined envUrlDesc rfl rfl rfl rfl
    (Or.inr (by decide)) (Or.inr (by decide))
  rw [h]
  decide

----------------------------------------------------------------
-- C7: bulk selection events
----------------------------------------------------------------

theorem selectItem_countP_selChange (cfg : ListCfg) (objId : Nat → Nat) (st : ListState)
    (item : Item) :
    ((selectItem cfg objId st item false).events.countP
        (fun e => e == LEv.selectionChangeEv)) =
      st.events.countP (fun e => e == LEv.selectionChangeEv) := by
  unfold selectItem
  by_cases hcond :
      (isSelected cfg objId st item || (cfg.hasSelection && !(isItemSelectable cfg item))) = true
  · simp [hcond]
  · simp only [Bool.not_eq_true] at hcond
    simp [hcond, List.countP_append]

theorem deselectItem_countP_selChange (cfg : ListCfg) (objId : Nat → Nat) (st : ListState)
    (item : Item) :
    ((deselectItem cfg objId st item false).events.countP
        (fun e => e == LEv.selectionChangeEv)) =
      st.events.countP (fun e => e == LEv.selectionChangeEv) := by
  unfold deselectItem
  by_cases hcond : (!(isSelected cfg objId st item)) = true
  · simp [hcond]
  · simp only [Bool.not_eq_true'] at hcond
    simp [hcond, List.countP_append]

theorem foldl_events_countP_selChange (f : ListState → Item → ListState)
    (hf : ∀ s it, ((f s it).events.countP (fun e => e == LEv.selectionChangeEv)) =
      s.events.countP (fun e => e == LEv.selectionChangeEv)) (items : List Item) :
    ∀ st : ListState,
      ((items.foldl f st).events.countP (fun e => e == LEv.selectionChangeEv)) =
        st.events.countP (fun e => e == LEv.selectionChangeEv) := by
  induction items with
  | nil => intro st; rfl
  | cons hd t ih => intro st; rw [List.foldl_cons, ih, hf]

/-- C7 counterexample: a bulk `setSelections(true)` over one selectable,
unselected item emits the item-scoped `item_selected_<id>` event during the
bulk operation (followed by the single aggregate `selection_change`),
contradicting "no per-item selection/deselection event is emitted". -/
theorem c7_counterexample :
    LEv.itemSelectedEv "a" ∈
      (setSelections selectionCfg objIdTag stEmpty true true [itemA]).events ∧
    (setSelections selectionCfg objIdTag stEmpty true true [itemA]).events =
      [LEv.itemSelectedEv "a", LEv.selectionChangeEv] := by
  decide

/-- C7 (amended): `setSelections` suppresses the per-item aggregate
notifications — starting from an empty event log, exactly one aggregate
`selection_change` event is emitted and it comes last — while the
item-scoped `item_selected_<id>` / `item_deselected_<id>` events are still
emitted for items whose selection state changes. -/
theorem c7_setSelections_one_aggregate (cfg : ListCfg) (objId : Nat → Nat) (st : ListState)
    (selected : Bool) (items : List Item) (h : st.events = []) :
    ((setSelections cfg objId st selected true items).events.countP
        (fun e => e == LEv.selectionChangeEv)) = 1 ∧
    (setSelections cfg objId st selected true items).events.getLast? =
      some LEv.selectionChangeEv := by
  unfold setSelections
  cases selected
  · simp only [Bool.false_eq_true, if_false, if_true]
    constructor
    · rw [List.countP_append,
        foldl_events_countP_selChange _ (deselectItem_countP_selChange cfg objId) items st, h]
      simp
    · exact List.getLast?_concat _
  · simp only [if_true]
    constructor
    · rw [List.countP_append,
        foldl_events_countP_selChange _ (selectItem_countP_selChange cfg objId) items st, h]
      simp
    · exact List.getLast?_concat _

/-- Witness for C7: the concrete bulk selection of one item emits exactly
one aggregate event, last. -/
theorem c7_setSelections_one_aggregate_witness :
    ((setSelections selectionCfg objIdTag stEmpty true true [itemA]).events.countP
        (fun e => e == LEv.selectionChangeEv)) = 1 ∧
    (setSelections selectionCfg objIdTag stEmpty true true [itemA]).events.getLast? =
      some LEv.selectionChangeEv :=
  c7_setSelections_one_aggregate selectionCfg objIdTag stEmpty true [itemA] rfl

----------------------------------------------------------------
-- C6: addItem identity idempotence
----------------------------------------------------------------

theorem findIndexBy_nonneg {α : Type} (p : α → Bool) (l : List α) :
    findIndexBy p l = -1 ∨ 0 ≤ findIndexBy p l := by
  induction l with
  | nil => left; rfl
  | cons hd t ih =>
    rw [findIndexBy]
    by_cases h : p hd = true
    · right; simp [h]
    · simp only [h, if_false]
      rcases ih with ih | ih
      · left; simp [ih]
      · right
        by_cases h2 : findIndexBy p t = -1
        · omega
        · simp only [h2, if_false]
          omega

theorem countP_zero_of_findIndexBy_neg {α : Type} (p : α → Bool) (l : List α)
    (h : findIndexBy p l = -1) : l.countP p = 0 := by
  induction l with
  | nil => rfl
  | cons hd t ih =>
    rw [findIndexBy] at h
    by_cases hp : p hd = true
    · simp [hp] at h
    · simp only [hp, if_false] at h
      by_cases h2 : findIndexBy p t = -1
      · rw [List.countP_cons]
        simp [hp, ih h2]
      · simp only [h2, if_false] at h
        rcases findIndexBy_nonneg p t with h3 | h3
        · exact absurd h3 h2
        · omega

theorem countP_erase_at_findIndexBy {α : Type} (p : α → Bool) (l : List α)
    (h : l.countP p ≤ 1) :
    (if findIndexBy p l = -1 then l
     else l.eraseIdx (findIndexBy p l).toNat).countP p = 0 := by
  induction l with
  | nil => simp [findIndexBy]
  | cons hd t ih =>
    rw [List.countP_cons] at h
    by_cases hp : p hd = true
    · have hfi : findIndexBy p (hd :: t) = 0 := by rw [findIndexBy]; simp [hp]
      rw [hfi]
      rw [if_neg (by decide)]
      have h0 : ((0 : Int)).toNat = 0 := rfl
      rw [h0, List.eraseIdx_cons_zero]
      rw [if_pos hp] at h
      omega
    · have hcnt : t.countP p ≤ 1 := by simp [hp] at h; omega
      have ihs := ih hcnt
      by_cases h2 : findIndexBy p t = -1
      · have hfi : findIndexBy p (hd :: t) = -1 := by rw [findIndexBy]; simp [hp, h2]
        rw [hfi, if_pos rfl, List.countP_cons]
        rw [if_pos h2] at ihs
        simp [hp, ihs]
      · have hge : 0 ≤ findIndexBy p t := by
          rcases findIndexBy_nonneg p t with hc | hc
          · exact absurd hc h2
          · exact hc
        have hfi : findIndexBy p (hd :: t) = findIndexBy p t + 1 := by
          rw [findIndexBy]; simp [hp, h2]
        rw [hfi]
        rw [if_neg (by omega)]
        have htn : (findIndexBy p t + 1).toNat = (findIndexBy p t).toNat + 1 := by omega
        rw [htn, List.eraseIdx_cons_succ, List.countP_cons]
        rw [if_neg h2] at ihs
        simp [hp, ihs]

theorem objGet_objSet_self (it : Item) (k : String) (v : JSVal) :
    objGet (objSet it k v) k = v := by
  unfold objGet objSet
  rw [alGet_alSet_self]
  rfl

theorem removeItem_items (cfg : ListCfg) (st : ListState) (item : Item) :
    (removeItem cfg st item false).items =
      (if getItemIndex cfg st item = -1 then st.items
       else st.items.eraseIdx (getItemIndex cfg st item).toNat) := by
  unfold removeItem
  by_cases hidx : getItemIndex cfg st item = -1
  · simp [hidx]
  · rw [if_neg hidx, if_neg hidx]
    dsimp only
    split_ifs <;> rfl

theorem preProcessItem_fst_items (cfg : ListCfg) (objId : Nat → Nat) (st : ListState)
    (item : Item) :
    (preProcessItem cfg objId st item).1.items = st.items := by
  unfold preProcessItem
  dsimp only
  split <;> rfl

theorem preProcessItem_snd_idMap (cfg : ListCfg) (objId : Nat → Nat) (st : ListState)
    (item : Item) :
    objGet (preProcessItem cfg objId st item).2 (getIdMap cfg) =
      JSVal.str (jsStringOf (getItemId cfg objId
        (match cfg.preProcessItemCb with | some f => f item | none => item))) := by
  unfold preProcessItem
  dsimp only
  split <;> exact objGet_objSet_self _ _ _

theorem getItemId_of_field (cfg : ListCfg) (objId : Nat → Nat) (item : Item) (i : String)
    (hmap : cfg.mapItemId = none)
    (hx : objGet item (getIdMap cfg) = JSVal.str i) (hi : i ≠ "") :
    getItemId cfg objId item = JSVal.str i := by
  have htr : (JSVal.str i).truthy = true := by simp [JSVal.truthy, hi]
  unfold getItemId
  simp only [hmap]
  rw [if_neg (by simp [JSVal.truthy_undefined])]
  rw [hx]
  rw [if_pos htr]

theorem removeItem_countId (cfg : ListCfg) (st : ListState) (item : Item) (i : String)
    (hx : objGet item (getIdMap cfg) = JSVal.str i)
    (h : countId (getIdMap cfg) st.items i ≤ 1) :
    countId (getIdMap cfg) (removeItem cfg st item false).items i = 0 := by
  simp only [countId] at h ⊢
  rw [removeItem_items]
  unfold getItemIndex
  rw [hx]
  have hred : (if JSVal.str i = JSVal.undefined then (-1 : Int)
      else findIndexBy (fun it => objGet it (getIdMap cfg) == JSVal.str i) st.items)
      = findIndexBy (fun it => objGet it (getIdMap cfg) == JSVal.str i) st.items := by
    rw [if_neg (by simp)]
  rw [hred]
  exact countP_erase_at_findIndexBy _ _ h

theorem addItem_items (cfg : ListCfg) (objId : Nat → Nat) (st : ListState) (item : Item) :
    ((addItem cfg objId st item false false).1).items =
      (removeItem cfg st item false).items ++
        [(preProcessItem cfg objId (removeItem cfg st item false) item).2] := by
  unfold addItem
  dsimp only
  split_ifs <;> simp_all [preProcessItem_fst_items]

theorem addItem_countId_one (cfg : ListCfg) (objId : Nat → Nat) (st : ListState) (item : Item)
    (i : String) (hmap : cfg.mapItemId = none) (hcb : cfg.preProcessItemCb = none)
    (hx : objGet item (getIdMap cfg) = JSVal.str i) (hi : i ≠ "")
    (h : countId (getIdMap cfg) st.items i ≤ 1) :
    countId (getIdMap cfg) ((addItem cfg objId st item false false).1).items i = 1 := by
  have hrem := removeItem_countId cfg st item i hx h
  have hid := getItemId_of_field cfg objId item i hmap hx hi
  have hfield := preProcessItem_snd_idMap cfg objId (removeItem cfg st item false) item
  simp only [hcb] at hfield
  rw [hid] at hfield
  simp only [countId] at hrem ⊢
  rw [addItem_items, List.countP_append, hrem]
  simp [List.countP_cons, hfield, jsStringOf]

/-- C6 counterexample: two distinct raw objects without an `id` field whose
identity resolves (via a `mapItemId` callback) to the same id `'k'`: the
second `addItem` fails to evict the first — `getItemIndex` bails out because
the raw item's id-map field is `undefined` — leaving TWO entries of identity
`'k'` in `items`, so the claim's "exactly one entry" is false. -/
theorem c6_counterexample :
    getItemId mapIdCfg objIdTag anonX = getItemId mapIdCfg objIdTag anonY ∧
    countId "id"
      ((addItem mapIdCfg objIdTag
          ((addItem mapIdCfg objIdTag stEmpty anonX false false).1) anonY false false).1).items
      "k" = 2 ∧ (2 : Nat) ≠ 1 := by
  decide

/-- C6 (amended): calling `addItem` twice with items of identical resolved
identity leaves exactly one entry with that identity in `items`, provided
the items carry the identity in the id-map field at call time (and no
`mapItemId`/`preProcessItem` hook rewrites it); the second call then
evicts-then-reinserts.  When the identity is resolved only through a
`mapItemId` callback and the items lack the id-map field, the eviction
misses and a duplicate appears. -/
theorem c6_addItem_idempotent (cfg : ListCfg) (objId : Nat → Nat) (st : ListState)
    (x y : Item) (i : String)
    (hmap : cfg.mapItemId = none) (hcb : cfg.preProcessItemCb = none)
    (hx : objGet x (getIdMap cfg) = JSVal.str i) (hy : objGet y (getIdMap cfg) = JSVal.str i)
    (hi : i ≠ "") (h : countId (getIdMap cfg) st.items i ≤ 1) :
    countId (getIdMap cfg)
      ((addItem cfg objId ((addItem cfg objId st x false false).1) y false false).1).items i
      = 1 := by
  have h1 := addItem_countId_one cfg objId st x i hmap hcb hx hi h
  exact addItem_countId_one cfg objId _ y i hmap hcb hy hi (by omega)

/-- Witness for C6: adding the same `id`-carrying item twice leaves one
entry of that identity. -/
theorem c6_addItem_idempotent_witness :
    countId "id"
      ((addItem defaultListCfg objIdTag
          ((addItem defaultListCfg objIdTag stEmpty itemA false false).1) itemA false
          false).1).items "a" = 1 := by
  exact c6_addItem_idempotent defaultListCfg objIdTag stEmpty itemA itemA "a" rfl rfl
    (by decide) (by decide) (by decide) (by decide)
